import Mathlib

/-!
Verification of the offline durability and synchronization subsystem of the
Aurica mobile field-data-collection client.

The development is a shallow embedding of the TypeScript sources:

* `services/offlineStorage.ts`   — the durable local store (SQLite tables
  `pending_updates`, `stakeholders`, `stakeholder_variables`, photo files);
* `services/offlineQueueManager.ts` — the queue drain (batching, retry
  bookkeeping, the single-flight guard);
* `services/api.ts`              — the remote sync client and the read-through
  cache coordinator (`getStakeholders` / `getStakeholderVariables`);
* `services/offlineDesviosReportService.ts` — the offline report-data merge.

Modelling conventions:

* SQLite tables are lists of row structures; `DELETE ... WHERE` is `filter`,
  `UPDATE ... WHERE` is `map` with a conditional, and `INSERT OR REPLACE`
  (primary-key replace) removes the conflicting row and appends the new one.
* ISO-8601 timestamps (`created_at`, `cached_at`) are modelled as naturals;
  both the SQL `ORDER BY created_at ASC` on ISO strings and the JavaScript
  `new Date(a) > new Date(b)` comparison become the order on `Nat`.
* JavaScript truthiness on optional strings (`x || null`, `!!x`, `x ? _ : _`)
  is modelled explicitly: `none` and `some ""` are falsy.
* Asynchronous calls that can reject are modelled with oracle parameters
  (one constructor per outcome the code distinguishes); a promise rejection
  propagating to the caller is an `Except.error` value.
* The file system holding copied photos is a list of existing file paths.
-/

namespace Aurica

/-- JavaScript `x || null` on an optional string: `undefined`, `null` and the
empty string all collapse to `null` (the empty string is falsy). -/
def jsOrNull : Option String → Option String
  | none => none
  | some s => if s = "" then none else some s

/-- JavaScript `s || null` on a non-optional string field. -/
def jsStrOrNull (s : String) : Option String :=
  if s = "" then none else some s

/-- JavaScript `!!x` for an optional string. -/
def jsTruthy : Option String → Bool
  | none => false
  | some s => s != ""

/-! ### Data model (interfaces from `api.ts` / `offlineStorage.ts`) -/

/-- One row of the `pending_updates` table (`PendingUpdate` in
`offlineStorage.ts`). -/
structure PendingUpdate where
  id : Nat
  stakeholder_variable_id : Nat
  value : String
  measurement_date : String
  file_description : Option String := none
  photo_uri : Option String := none
  photo_type : Option String := none
  photo_name : Option String := none
  created_at : Nat
  retry_count : Nat := 0
  last_error : Option String := none
deriving DecidableEq, Repr

structure Company where
  id : Nat
  name : String
deriving DecidableEq, Repr

/-- `Stakeholder` interface from `api.ts`. -/
structure Stakeholder where
  id : Nat
  name : String
  administrator : Option String := none
  company : Company
deriving DecidableEq, Repr

structure Sdg where
  sdg_number : Nat
  title : String
deriving DecidableEq, Repr

structure Indicator where
  title : String
  sdg : Sdg
deriving DecidableEq, Repr

/-- Nested `indicator_variable` object of a `StakeholderVariable` (`api.ts`).
The source field `variable` is a Lean keyword, so it is named `variable_name`
here.  `material_theme` is optional because the cache read-back
(`getCachedStakeholderVariables`) reconstructs the object without it, which in
JavaScript leaves the field `undefined`. -/
structure IndicatorVariable where
  variable_name : String
  unit : String
  response_type : String
  material_theme : Option String := none
  indicator : Indicator
deriving DecidableEq, Repr

/-- `latest_data` object of a `StakeholderVariable` (`api.ts`). -/
structure LatestData where
  value : String
  measurement_date : String
  data_quality : String
  has_attachments : Bool
  file_description : Option String := none
  created_at : Nat
deriving DecidableEq, Repr

/-- `StakeholderVariable` interface from `api.ts`. -/
structure StakeholderVariable where
  id : Nat
  status : String
  current_value : String
  target_value : String
  indicator_variable : IndicatorVariable
  latest_data : Option LatestData := none
deriving DecidableEq, Repr

/-- `ReportType` interface from `api.ts`. -/
structure ReportType where
  id : String
  name : String
  description : String
deriving DecidableEq, Repr

/-- One row of the `stakeholders` table (schema in
`offlineStorage.initialize`). -/
structure StakeholderRow where
  id : Nat
  name : String
  administrator : Option String
  company_id : Nat
  company_name : String
  cached_at : Nat
deriving DecidableEq, Repr

/-- One row of the `stakeholder_variables` table (schema in
`offlineStorage.initialize`).  The source column `variable` is named
`variable_name` (Lean keyword). -/
structure StakeholderVariableRow where
  id : Nat
  stakeholder_id : Nat
  status : String
  current_value : Option String
  target_value : Option String
  variable_name : String
  unit : Option String
  response_type : String
  indicator_title : String
  sdg_number : Nat
  sdg_title : String
  latest_value : Option String
  latest_measurement_date : Option String
  latest_data_quality : Option String
  latest_has_attachments : Bool
  latest_file_description : Option String
  latest_created_at : Option Nat
  cached_at : Nat
deriving DecidableEq, Repr

/-- Durable-store state touched by the pending-update queue: the
`pending_updates` rows and the set of existing photo files (the
`offline_photos/` directory and any other referenced paths). -/
structure StoreState where
  pending : List PendingUpdate
  files : List String
deriving DecidableEq, Repr

/-! ### Durable local store: pending-update queue (`offlineStorage.ts`) -/

/-- Comparison used by `ORDER BY created_at ASC`. -/
def leCreated (a b : PendingUpdate) : Prop :=
  a.created_at ≤ b.created_at

instance : DecidableRel leCreated :=
  fun a b => inferInstanceAs (Decidable (a.created_at ≤ b.created_at))

instance : IsTotal PendingUpdate leCreated :=
  ⟨fun a b => Nat.le_total a.created_at b.created_at⟩

instance : IsTrans PendingUpdate leCreated :=
  ⟨fun _ _ _ h h' => Nat.le_trans h h'⟩

/-- `getPendingUpdates` (offlineStorage.ts 173–191):
`SELECT * FROM pending_updates ORDER BY created_at ASC`. -/
def getPendingUpdates (pending : List PendingUpdate) : List PendingUpdate :=
  pending.insertionSort leCreated

/-- `updateRetryCount` (offlineStorage.ts 253–273):
`UPDATE pending_updates SET retry_count = ?, last_error = ? WHERE id = ?`,
with the bound value `lastError || null`. -/
def updateRetryCount (pending : List PendingUpdate) (updateId retryCount : Nat)
    (lastError : Option String) : List PendingUpdate :=
  pending.map fun u =>
    if u.id == updateId then
      { u with retry_count := retryCount, last_error := jsOrNull lastError }
    else u

/-- Test used by `removeUpdate`: `update.photo_uri.includes('offline_photos/')`,
a substring check. -/
def inOfflinePhotosDir (uri : String) : Bool :=
  decide (List.IsInfix "offline_photos/".toList uri.toList)

/-- `removeUpdate` (offlineStorage.ts 212–251): look the row up, best-effort
delete its photo file when the URI is truthy, lies in the owned
`offline_photos/` directory and the file exists, then delete the row.
`deleteOk` is the oracle for the `FileSystem.deleteAsync` call; a failed file
deletion is caught and does not stop the row deletion. -/
def removeUpdate (s : StoreState) (updateId : Nat) (deleteOk : Bool) : StoreState :=
  let found := s.pending.find? fun u => u.id == updateId
  let files :=
    match found.bind (·.photo_uri) with
    | some uri =>
      if jsTruthy (some uri) && inOfflinePhotosDir uri && s.files.contains uri && deleteOk then
        s.files.filter fun f => f != uri
      else s.files
    | none => s.files
  { pending := s.pending.filter fun u => u.id != updateId
    files := files }

/-- `clearAllUpdates` (offlineStorage.ts 275–289):
`DELETE FROM pending_updates` — rows only, no photo-file cleanup. -/
def clearAllUpdates (s : StoreState) : StoreState :=
  { s with pending := [] }

/-! ### Durable local store: reference-data caches (`offlineStorage.ts`) -/

/-- Row written by `cacheStakeholders` for one fetched stakeholder. -/
def stakeholderRowOf (s : Stakeholder) (now : Nat) : StakeholderRow :=
  { id := s.id
    name := s.name
    administrator := jsOrNull s.administrator
    company_id := s.company.id
    company_name := s.company.name
    cached_at := now }

/-- SQLite `INSERT OR REPLACE` on the `stakeholders` table: the primary key is
`id`, so a conflicting row is removed and the new row inserted. -/
def insertOrReplaceStakeholder (table : List StakeholderRow) (row : StakeholderRow) :
    List StakeholderRow :=
  (table.filter fun r => r.id != row.id) ++ [row]

/-- `cacheStakeholders` (offlineStorage.ts 314–347): `DELETE FROM stakeholders`
(the whole table — the previous contents `_table` are discarded), then
`INSERT OR REPLACE` each fetched stakeholder in order. -/
def cacheStakeholders (_table : List StakeholderRow) (stakeholders : List Stakeholder)
    (now : Nat) : List StakeholderRow :=
  stakeholders.foldl (fun t s => insertOrReplaceStakeholder t (stakeholderRowOf s now)) []

/-- Comparison used by `ORDER BY name ASC` on the `stakeholders` table. -/
def rowNameLe (a b : StakeholderRow) : Prop :=
  a.name ≤ b.name

instance : DecidableRel rowNameLe :=
  fun a b => inferInstanceAs (Decidable (a.name ≤ b.name))

instance : IsTotal StakeholderRow rowNameLe :=
  ⟨fun a b => le_total a.name b.name⟩

instance : IsTrans StakeholderRow rowNameLe :=
  ⟨fun _ _ _ h h' => le_trans h h'⟩

/-- `getCachedStakeholders` (offlineStorage.ts 349–374):
`SELECT * FROM stakeholders ORDER BY name ASC`, rows mapped back to
`Stakeholder` objects (`row.administrator || undefined`). -/
def getCachedStakeholders (table : List StakeholderRow) : List Stakeholder :=
  (table.insertionSort rowNameLe).map fun row =>
    { id := row.id
      name := row.name
      administrator := jsOrNull row.administrator
      company := { id := row.company_id, name := row.company_name } }

/-- Row written by `cacheStakeholderVariables` for one fetched variable
(offlineStorage.ts 391–421); every `x || null` is JavaScript truthiness.
`latest_created_at` is a timestamp and therefore a natural in this model, so
its `|| null` keeps the plain optional value. -/
def variableRowOf (stakeholderId : Nat) (v : StakeholderVariable) (now : Nat) :
    StakeholderVariableRow :=
  { id := v.id
    stakeholder_id := stakeholderId
    status := v.status
    current_value := jsStrOrNull v.current_value
    target_value := jsStrOrNull v.target_value
    variable_name := v.indicator_variable.variable_name
    unit := jsStrOrNull v.indicator_variable.unit
    response_type := v.indicator_variable.response_type
    indicator_title := v.indicator_variable.indicator.title
    sdg_number := v.indicator_variable.indicator.sdg.sdg_number
    sdg_title := v.indicator_variable.indicator.sdg.title
    latest_value := jsOrNull (v.latest_data.map (·.value))
    latest_measurement_date := jsOrNull (v.latest_data.map (·.measurement_date))
    latest_data_quality := jsOrNull (v.latest_data.map (·.data_quality))
    latest_has_attachments := (v.latest_data.map (·.has_attachments)).getD false
    latest_file_description := jsOrNull (v.latest_data.bind (·.file_description))
    latest_created_at := v.latest_data.map (·.created_at)
    cached_at := now }

/-- SQLite `INSERT OR REPLACE` on the `stakeholder_variables` table: the
primary key is the (server-global) `id` column, so a conflicting row is
removed — whatever its `stakeholder_id` — and the new row inserted. -/
def insertOrReplaceVariableRow (table : List StakeholderVariableRow)
    (row : StakeholderVariableRow) : List StakeholderVariableRow :=
  (table.filter fun r => r.id != row.id) ++ [row]

/-- `cacheStakeholderVariables` (offlineStorage.ts 377–429):
`DELETE FROM stakeholder_variables WHERE stakeholder_id = ?`, then
`INSERT OR REPLACE` each fetched variable in order.  The source parameter
`variables` is a reserved word in Lean, hence `vars`. -/
def cacheStakeholderVariables (table : List StakeholderVariableRow)
    (stakeholderId : Nat) (vars : List StakeholderVariable) (now : Nat) :
    List StakeholderVariableRow :=
  vars.foldl
    (fun t v => insertOrReplaceVariableRow t (variableRowOf stakeholderId v now))
    (table.filter fun r => r.stakeholder_id != stakeholderId)

/-- Comparison used by `ORDER BY variable ASC` on `stakeholder_variables`. -/
def rowVariableLe (a b : StakeholderVariableRow) : Prop :=
  a.variable_name ≤ b.variable_name

instance : DecidableRel rowVariableLe :=
  fun a b => inferInstanceAs (Decidable (a.variable_name ≤ b.variable_name))

instance : IsTotal StakeholderVariableRow rowVariableLe :=
  ⟨fun a b => le_total a.variable_name b.variable_name⟩

instance : IsTrans StakeholderVariableRow rowVariableLe :=
  ⟨fun _ _ _ h h' => le_trans h h'⟩

/-- `getCachedStakeholderVariables` (offlineStorage.ts 431–476):
`SELECT * FROM stakeholder_variables WHERE stakeholder_id = ? ORDER BY
variable ASC`, rows mapped back to `StakeholderVariable` objects.  The
`material_theme` column is not cached, so the reconstructed object leaves it
absent; `latest_data` is rebuilt only when `row.latest_value` is truthy. -/
def getCachedStakeholderVariables (table : List StakeholderVariableRow)
    (stakeholderId : Nat) : List StakeholderVariable :=
  (((table.filter fun r => r.stakeholder_id == stakeholderId).insertionSort
    rowVariableLe)).map fun row =>
    { id := row.id
      status := row.status
      current_value := row.current_value.getD ""
      target_value := row.target_value.getD ""
      indicator_variable :=
        { variable_name := row.variable_name
          unit := row.unit.getD ""
          response_type := row.response_type
          material_theme := none
          indicator :=
            { title := row.indicator_title
              sdg := { sdg_number := row.sdg_number, title := row.sdg_title } } }
      latest_data :=
        match row.latest_value with
        | none => none
        | some s =>
          if s = "" then none
          else some
            { value := s
              measurement_date := row.latest_measurement_date.getD ""
              data_quality := row.latest_data_quality.getD ""
              has_attachments := row.latest_has_attachments
              file_description := jsOrNull row.latest_file_description
              created_at := row.latest_created_at.getD 0 } }

/-- Modelled from the spec: the report-type cache operations
`cacheReportTypes` / `getCachedReportTypes` of the Durable Local Store are
invoked by `AuthContext.tsx` (line 207) and by the sign-report modal
(`loadReportTypes`), but their implementation is not among the provided
sources; per spec section 4.1 each cache-write is a full delete-then-insert
for its owner scope, and the scope here is the whole report-type list, so the
write discards the previous table contents `_table` and stores the new list. -/
def cacheReportTypes (_table : List ReportType) (reportTypes : List ReportType) :
    List ReportType :=
  reportTypes

/-- Modelled from the spec: the read side of the report-type cache returns the
stored list. -/
def getCachedReportTypes (table : List ReportType) : List ReportType :=
  table

/-! ### Offline queue manager (`offlineQueueManager.ts`) -/

/-- Aggregate drain result (`QueueProcessingResult`); an error entry pairs the
update id with the recorded message. -/
structure QueueProcessingResult where
  successCount : Nat
  failureCount : Nat
  totalProcessed : Nat
  errors : List (Nat × String)
deriving DecidableEq, Repr

/-- The zero result returned by `processQueue` when a drain is already in
flight. -/
def zeroResult : QueueProcessingResult :=
  { successCount := 0, failureCount := 0, totalProcessed := 0, errors := [] }

/-- Outcome of one `apiService.updateMeasureData` call as `processUpdate`
distinguishes them: resolved with `success: true`; resolved with
`success: false` and an optional error string; or rejected, in which case the
code stores `error instanceof Error ? error.message : 'Unknown error'` and
`message` is that computed string. -/
inductive ApiOutcome
  | success
  | failure (error : Option String)
  | thrown (message : String)
deriving DecidableEq, Repr

/-- The failure message of a non-success outcome (the string `processUpdate`
passes to `updateRetryCount`). -/
def failureMessage : ApiOutcome → Option String
  | .success => none
  | .failure e => e
  | .thrown m => some m

/-- `processUpdate` (offlineQueueManager.ts 133–193) for one snapshot row `u`:
on success remove the row (and best-effort its photo, `deleteOk` being the
file-deletion oracle); on failure or rejection set
`retry_count := u.retry_count + 1` and persist the latest error message. -/
def processUpdate (s : StoreState) (u : PendingUpdate) (outcome : ApiOutcome)
    (deleteOk : Bool) : StoreState :=
  match outcome with
  | .success => removeUpdate s u.id deleteOk
  | .failure e =>
    { s with pending := updateRetryCount s.pending u.id (u.retry_count + 1) e }
  | .thrown m =>
    { s with pending := updateRetryCount s.pending u.id (u.retry_count + 1) (some m) }

/-- One dispatch attempt for the queued item `updateId`: the drain snapshots
the row (as `getPendingUpdates` would deliver it) and runs `processUpdate` on
it.  Consecutive attempts in consecutive drains re-read the row each time. -/
def dispatchAttempt (s : StoreState) (updateId : Nat) (outcome : ApiOutcome)
    (deleteOk : Bool) : StoreState :=
  match s.pending.find? (fun u => u.id == updateId) with
  | none => s
  | some u => processUpdate s u outcome deleteOk

/-- Observable scheduling events of one drain (`processQueue`,
offlineQueueManager.ts 102–112): a batch is dispatched (all its members'
network calls started), the batch settles (`Promise.allSettled` resolves), and
the 1000 ms inter-batch delay runs. -/
inductive DrainEvent
  | dispatchAll (batch : List PendingUpdate)
  | settled (batch : List PendingUpdate)
  | pause
deriving DecidableEq, Repr

/-- The batch decomposition of the drain loop
(`for (let i = 0; i < n; i += batchSize)` with `batchSize = 5`):
successive `slice(i, i + 5)` chunks. -/
def chunksOf5 (l : List PendingUpdate) : List (List PendingUpdate) :=
  if l = [] then [] else l.take 5 :: chunksOf5 (l.drop 5)
termination_by l.length
decreasing_by
  simp only [List.length_drop]
  exact Nat.sub_lt (List.length_pos.mpr (by assumption)) (by norm_num)

/-- Event trace of one drain over the sorted pending list: each batch is
dispatched and awaited (`await this.processBatch`), and the pause runs exactly
when `i + batchSize < pendingUpdates.length`, i.e. when another batch
follows. -/
def drainEvents (l : List PendingUpdate) : List DrainEvent :=
  if l = [] then []
  else
    DrainEvent.dispatchAll (l.take 5) :: DrainEvent.settled (l.take 5) ::
      (if l.drop 5 = [] then []
       else DrainEvent.pause :: drainEvents (l.drop 5))
termination_by l.length
decreasing_by
  simp only [List.length_drop]
  exact Nat.sub_lt (List.length_pos.mpr (by assumption)) (by norm_num)

/-- Sequential composition of per-batch event blocks with the inter-batch
pause between consecutive blocks (none after the last). -/
def glueWithPause : List (List DrainEvent) → List DrainEvent
  | [] => []
  | [b] => b
  | b :: bs => b ++ DrainEvent.pause :: glueWithPause bs

/-- In-memory state of the queue manager: the `isProcessing` single-flight
guard plus the durable store it drains. -/
structure ManagerState where
  isProcessing : Bool
  store : StoreState
deriving DecidableEq, Repr

/-- `processQueue` (offlineQueueManager.ts 75–124).  If the guard is set the
call returns the zero result at once, touching nothing.  Otherwise the guard
is set and the try-block body runs; `body` maps the store to the new store,
the accumulated result, and `some e` when an unexpected error escapes the
per-item handling (the catch block swallows it).  The finally block clears the
guard and notifies listeners in every case, and the accumulated result is
returned. -/
def processQueueRun (body : StoreState → StoreState × QueueProcessingResult × Option String)
    (s : ManagerState) : QueueProcessingResult × ManagerState :=
  if s.isProcessing then
    (zeroResult, s)
  else
    let r := body s.store
    (r.2.1, { isProcessing := false, store := r.1 })

/-! ### Remote sync client and read-through cache coordinator (`api.ts`) -/

/-- Outcome of `NetInfo.fetch()`: resolved with the two flags the code reads
(`isConnected`, `isInternetReachable === true`), or rejected. -/
inductive NetCheckOutcome
  | result (isConnected : Bool) (isInternetReachable : Bool)
  | thrown (message : String)
deriving DecidableEq, Repr

/-- Outcome of one `fetch` of reference data: `response.ok` with the parsed
list, an HTTP error status, or a rejection (network failure). -/
inductive FetchOutcome (α : Type)
  | ok (data : α)
  | httpError (status : Nat)
  | thrown (message : String)
deriving DecidableEq, Repr

/-- Outcome of the cache write inside the background fetch (its own
try/catch). -/
inductive WriteOutcome
  | ok
  | thrown (message : String)
deriving DecidableEq, Repr

/-- `fetchStakeholdersInBackground` (api.ts 393–438), with oracles for the
three awaited effects.  The first component is the settlement of the returned
promise (`Except.error` would be a rejection); the second is the resulting
`stakeholders` table.  A failed cache write is caught by the inner catch and
modelled as leaving the table unchanged.  The outer catch resolves with the
cached data, so the inner value `tryBody` makes every throwing path explicit
before the catch folds it away. -/
def fetchStakeholdersInBackground (table : List StakeholderRow)
    (net : NetCheckOutcome) (fetchResult : FetchOutcome (List Stakeholder))
    (cacheWrite : WriteOutcome) (now : Nat) :
    Except String (List Stakeholder) × List StakeholderRow :=
  let tryBody : Except String (List Stakeholder) × List StakeholderRow :=
    match net with
    | .thrown m => (.error m, table)
    | .result c r =>
      if !(c && r) then
        (.ok (getCachedStakeholders table), table)
      else
        match fetchResult with
        | .thrown m => (.error m, table)
        | .httpError _ => (.ok (getCachedStakeholders table), table)
        | .ok data =>
          match cacheWrite with
          | .ok => (.ok data, cacheStakeholders table data now)
          | .thrown _ => (.ok data, table)
  match tryBody with
  | (.error _, t) => (.ok (getCachedStakeholders t), t)
  | ok => ok

/-- `getStakeholders` (api.ts 376–390): resolve the cached list first, then
start the background fetch and hand its promise back as `fresh`. -/
def getStakeholders (table : List StakeholderRow) (net : NetCheckOutcome)
    (fetchResult : FetchOutcome (List Stakeholder)) (cacheWrite : WriteOutcome)
    (now : Nat) :
    List Stakeholder × (Except String (List Stakeholder) × List StakeholderRow) :=
  (getCachedStakeholders table,
   fetchStakeholdersInBackground table net fetchResult cacheWrite now)

/-- `fetchStakeholderVariablesInBackground` (api.ts 460–505); same shape as
the stakeholders fetch, scoped to one `stakeholderId`. -/
def fetchStakeholderVariablesInBackground (table : List StakeholderVariableRow)
    (stakeholderId : Nat) (net : NetCheckOutcome)
    (fetchResult : FetchOutcome (List StakeholderVariable))
    (cacheWrite : WriteOutcome) (now : Nat) :
    Except String (List StakeholderVariable) × List StakeholderVariableRow :=
  let tryBody : Except String (List StakeholderVariable) × List StakeholderVariableRow :=
    match net with
    | .thrown m => (.error m, table)
    | .result c r =>
      if !(c && r) then
        (.ok (getCachedStakeholderVariables table stakeholderId), table)
      else
        match fetchResult with
        | .thrown m => (.error m, table)
        | .httpError _ => (.ok (getCachedStakeholderVariables table stakeholderId), table)
        | .ok data =>
          match cacheWrite with
          | .ok => (.ok data, cacheStakeholderVariables table stakeholderId data now)
          | .thrown _ => (.ok data, table)
  match tryBody with
  | (.error _, t) => (.ok (getCachedStakeholderVariables t stakeholderId), t)
  | ok => ok

/-- `getStakeholderVariables` (api.ts 443–457). -/
def getStakeholderVariables (table : List StakeholderVariableRow)
    (stakeholderId : Nat) (net : NetCheckOutcome)
    (fetchResult : FetchOutcome (List StakeholderVariable))
    (cacheWrite : WriteOutcome) (now : Nat) :
    List StakeholderVariable ×
      (Except String (List StakeholderVariable) × List StakeholderVariableRow) :=
  (getCachedStakeholderVariables table stakeholderId,
   fetchStakeholderVariablesInBackground table stakeholderId net fetchResult cacheWrite now)

/-- One network call issued by the remote sync client: the endpoint and
whether the `fetch` is passed an `AbortController` signal armed by a
`setTimeout`, with the timeout duration when present. -/
structure NetworkCall where
  endpoint : String
  hasAbortTimeout : Bool
  timeoutMs : Option Nat
deriving DecidableEq, Repr

/-- The network calls of the remote sync client paths named by the spec, as
issued in `api.ts`: the CSRF-token fetch (api.ts 126–138, 20 s abort) and the
measurement submission (api.ts 590–606, 5 s abort) carry explicit timeouts;
the stakeholder fetch (api.ts 405–412), the per-owner variables fetch
(api.ts 472–479) and the report-types fetch (api.ts 641–649) call `fetch`
with no signal and no timeout. -/
def remoteSyncClientCalls : List NetworkCall :=
  [ { endpoint := "GET /login/ (CSRF token)", hasAbortTimeout := true, timeoutMs := some 20000 },
    { endpoint := "POST /update-data/", hasAbortTimeout := true, timeoutMs := some 5000 },
    { endpoint := "GET /stakeholders/api/", hasAbortTimeout := false, timeoutMs := none },
    { endpoint := "GET /stakeholders/get-stakeholder-variables/", hasAbortTimeout := false, timeoutMs := none },
    { endpoint := "GET /api/reports/types/", hasAbortTimeout := false, timeoutMs := none } ]

/-! ### Offline report-data merger (`offlineDesviosReportService.ts`) -/

/-- The map built by `mergePendingUpdatesWithVariables`
(offlineDesviosReportService.ts 661–668): for each variable id, the pending
update targeting it with the latest `created_at` (a strictly later update
replaces the current entry, so on equal timestamps the earlier listed update
wins). -/
def latestUpdatesByVariable (pendingUpdates : List PendingUpdate) :
    Nat → Option PendingUpdate :=
  pendingUpdates.foldl
    (fun m u => fun k =>
      if k = u.stakeholder_variable_id then
        match m u.stakeholder_variable_id with
        | none => some u
        | some e => if e.created_at < u.created_at then some u else some e
      else m k)
    (fun _ => none)

/-- `mergePendingUpdatesWithVariables` (offlineDesviosReportService.ts
656–697): variables with no targeting pending update pass through unchanged;
a targeted variable gets `current_value` from the latest update and a
`latest_data` record synthesized from it with `data_quality = "pending"`
(`has_attachments` is the truthiness of `photo_uri`). -/
def mergePendingUpdatesWithVariables (vars : List StakeholderVariable)
    (pendingUpdates : List PendingUpdate) : List StakeholderVariable :=
  vars.map fun v =>
    match latestUpdatesByVariable pendingUpdates v.id with
    | none => v
    | some u =>
      { v with
        current_value := u.value
        latest_data := some
          { value := u.value
            measurement_date := u.measurement_date
            data_quality := "pending"
            has_attachments := jsTruthy u.photo_uri
            file_description := u.file_description
            created_at := u.created_at } }

/-! ### Read-accessor error behaviour (`offlineStorage.ts`) -/

/-- Outcome of the underlying SQLite query inside a read accessor (the
operations above assume it succeeds; these wrappers make the catch blocks
explicit). -/
inductive QueryOutcome
  | ok
  | fail (message : String)
deriving DecidableEq, Repr

/-- `getPendingUpdates` with its error path (offlineStorage.ts 173–191): the
catch block logs and rethrows, so a query failure propagates. -/
def getPendingUpdatesRun (pending : List PendingUpdate) :
    QueryOutcome → Except String (List PendingUpdate)
  | .ok => .ok (getPendingUpdates pending)
  | .fail m => .error m

/-- `getPendingUpdatesCount` (offlineStorage.ts 193–210):
`SELECT COUNT(*) FROM pending_updates`; the catch block returns 0. -/
def getPendingUpdatesCountRun (pending : List PendingUpdate) :
    QueryOutcome → Except String Nat
  | .ok => .ok pending.length
  | .fail _ => .ok 0

/-- `getCachedStakeholders` with its error path (offlineStorage.ts 349–374):
the catch block returns the empty list. -/
def getCachedStakeholdersRun (table : List StakeholderRow) :
    QueryOutcome → Except String (List Stakeholder)
  | .ok => .ok (getCachedStakeholders table)
  | .fail _ => .ok []

/-- `getCachedStakeholderVariables` with its error path (offlineStorage.ts
431–476): the catch block returns the empty list. -/
def getCachedStakeholderVariablesRun (table : List StakeholderVariableRow)
    (stakeholderId : Nat) : QueryOutcome → Except String (List StakeholderVariable)
  | .ok => .ok (getCachedStakeholderVariables table stakeholderId)
  | .fail _ => .ok []

/-- Primary-key projection of the pending queue. -/
def idsOf (pending : List PendingUpdate) : List Nat :=
  pending.map (·.id)

/-! ### Concrete fixtures used by witnesses and counterexamples -/

/-- Fixture for the C3 witness: a drain body from which an unexpected error
escapes. -/
def bodyC3 : StoreState → StoreState × QueueProcessingResult × Option String :=
  fun st => (st, zeroResult, some "unexpected")

/-- Fixture for the C3 witness: a manager mid-drain. -/
def busyC3 : ManagerState :=
  { isProcessing := true, store := { pending := [], files := [] } }

/-- Fixture for the C3 witness: an idle manager. -/
def idleC3 : ManagerState :=
  { isProcessing := false, store := { pending := [], files := [] } }

/-- Fixture for C9: a queued update whose photo was copied into the owned
offline-photos directory. -/
def updateC9 : PendingUpdate :=
  { id := 1, stakeholder_variable_id := 42, value := "7",
    measurement_date := "2024-03-01",
    photo_uri := some "file:///data/user/0/app/files/offline_photos/photo_1.jpg",
    created_at := 1 }

/-- Fixture for C9: the store holding that update and its photo file. -/
def storeC9 : StoreState :=
  { pending := [updateC9],
    files := ["file:///data/user/0/app/files/offline_photos/photo_1.jpg"] }

/-- Fixture for C5: a cached variable row belonging to stakeholder 1. -/
def rowC5 : StakeholderVariableRow :=
  { id := 100, stakeholder_id := 1, status := "active", current_value := none,
    target_value := none, variable_name := "water use", unit := none,
    response_type := "number", indicator_title := "Water", sdg_number := 6,
    sdg_title := "Clean Water", latest_value := none,
    latest_measurement_date := none, latest_data_quality := none,
    latest_has_attachments := false, latest_file_description := none,
    latest_created_at := none, cached_at := 0 }

/-- Fixture for C5: a fetched variable whose server id collides with
`rowC5`. -/
def varC5 : StakeholderVariable :=
  { id := 100, status := "active", current_value := "5", target_value := "10",
    indicator_variable :=
      { variable_name := "energy", unit := "kWh", response_type := "number",
        material_theme := some "env",
        indicator := { title := "Energy",
                       sdg := { sdg_number := 7, title := "Energy SDG" } } },
    latest_data := none }

/-- Fixture for C5: one stakeholder. -/
def stkC5 : Stakeholder :=
  { id := 3, name := "Farm A", company := { id := 1, name := "Co" } }

/-- Fixture for C2: the later-enqueued update. -/
def updateC2a : PendingUpdate :=
  { id := 2, stakeholder_variable_id := 43, value := "8",
    measurement_date := "2024-03-02", created_at := 20 }

/-- Fixture for C2: the earlier-enqueued update. -/
def updateC2b : PendingUpdate :=
  { id := 1, stakeholder_variable_id := 42, value := "7",
    measurement_date := "2024-03-01", created_at := 10 }

/-- Fixture for C2: a queue whose physical row order differs from FIFO
order. -/
def pendingC2 : List PendingUpdate :=
  [updateC2a, updateC2b]

/-- Fixture for C1: a queued measurement. -/
def updateC1 : PendingUpdate :=
  { id := 1, stakeholder_variable_id := 42, value := "7",
    measurement_date := "2024-03-01", created_at := 10 }

/-- Fixture for C1: the store holding it. -/
def storeC1 : StoreState :=
  { pending := [updateC1], files := [] }

/-- Fixture for C1: two consecutive failing dispatch attempts (an HTTP
rejection, then a thrown timeout), each with the file-deletion oracle set. -/
def attemptsC1 : List (ApiOutcome × Bool) :=
  [(ApiOutcome.failure (some "HTTP 500"), true),
   (ApiOutcome.thrown "Request timeout", true)]

/-- Left-fold of the max-by-`created_at` step over a list of targeting
updates: specification vocabulary used to characterize
`latestUpdatesByVariable`. -/
def pickLatest (acc : Option PendingUpdate) (l : List PendingUpdate) :
    Option PendingUpdate :=
  l.foldl
    (fun a u =>
      match a with
      | none => some u
      | some e => if e.created_at < u.created_at then some u else some e)
    acc

/-- Fixture for C4: a cached variable showing the server-confirmed value. -/
def varC4 : StakeholderVariable :=
  { id := 42, status := "active", current_value := "10", target_value := "20",
    indicator_variable :=
      { variable_name := "water use", unit := "m3", response_type := "number",
        material_theme := some "env",
        indicator := { title := "Water",
                       sdg := { sdg_number := 6, title := "Clean Water" } } },
    latest_data := some
      { value := "10", measurement_date := "2024-02-01", data_quality := "good",
        has_attachments := false, created_at := 5 } }

/-- Fixture for C4: an earlier pending update targeting variable 42. -/
def pendC4a : PendingUpdate :=
  { id := 1, stakeholder_variable_id := 42, value := "11",
    measurement_date := "2024-03-01", created_at := 30 }

/-- Fixture for C4: the latest pending update targeting variable 42. -/
def pendC4b : PendingUpdate :=
  { id := 2, stakeholder_variable_id := 42, value := "12",
    measurement_date := "2024-03-02", created_at := 40 }

/-- Fixture for C6: a cached stakeholders table. -/
def tableC6 : List StakeholderRow :=
  [{ id := 1, name := "Z Farm", administrator := none, company_id := 1,
     company_name := "Co", cached_at := 0 }]

/-- Fixture for C6: a freshly fetched stakeholder. -/
def stkC6 : Stakeholder :=
  { id := 2, name := "New Farm", company := { id := 1, name := "Co" } }

/-! ### Theorems -/

/-- C3: at most one drain is in flight at a time.  With the `isProcessing`
guard set, `processQueue` returns the zero result `{0, 0, 0, []}` at once,
leaving the manager state — in particular the queue — untouched, and returns
normally (the model is a total function; no error value exists on this path).
When a drain actually runs, the guard is clear afterwards whatever the body
did, including when an unexpected error escaped the per-item handling
(arbitrary `Option String` error component of `body`), so a later call can
drain again; the drained store and accumulated result are returned. -/
theorem c3_single_flight_guard
    (body : StoreState → StoreState × QueueProcessingResult × Option String)
    (s : ManagerState) :
    (s.isProcessing = true → processQueueRun body s = (zeroResult, s)) ∧
    (s.isProcessing = false →
      (processQueueRun body s).2.isProcessing = false ∧
      (processQueueRun body s).2.store = (body s.store).1 ∧
      (processQueueRun body s).1 = (body s.store).2.1) := by
  constructor
  · intro h
    simp [processQueueRun, h]
  · intro h
    simp [processQueueRun, h]

/-- C3 witness: with the guard set the call is a no-op returning the zero
result, and a real drain (here with an escaping error) releases the guard. -/
theorem c3_single_flight_guard_witness :
    busyC3.isProcessing = true ∧
    processQueueRun bodyC3 busyC3 = (zeroResult, busyC3) ∧
    idleC3.isProcessing = false ∧
    (processQueueRun bodyC3 idleC3).2.isProcessing = false := by
  refine ⟨rfl, ?_, rfl, ?_⟩
  · exact (c3_single_flight_guard bodyC3 busyC3).1 rfl
  · exact ((c3_single_flight_guard bodyC3 idleC3).2 rfl).1

/-- C7: the Durable Local Store's report-type cache operations exist
(modelled from the spec, see `cacheReportTypes`) and the write is a full
delete-then-insert for the report-type scope, so writing a list and reading
it back returns exactly that list with no stale entries. -/
theorem c7_report_type_cache_roundtrip (table reportTypes : List ReportType) :
    getCachedReportTypes (cacheReportTypes table reportTypes) = reportTypes :=
  rfl

/-- C8 counterexample: not every network call of the remote sync client is
wrapped with an abort/timeout — the stakeholder fetch, the per-owner
variables fetch and the report-types fetch call `fetch` without a signal. -/
theorem c8_counterexample :
    ¬ remoteSyncClientCalls.all (fun c => c.hasAbortTimeout) = true ∧
    (remoteSyncClientCalls.filter (fun c => !c.hasAbortTimeout)).map (·.endpoint) =
      ["GET /stakeholders/api/", "GET /stakeholders/get-stakeholder-variables/",
       "GET /api/reports/types/"] := by
  exact ⟨by decide, rfl⟩

/-- C8 amended: among the remote sync client's network calls, exactly the
measurement-submission path — the CSRF-token fetch (20 s) and the
`update-data` POST (5 s) — is wrapped with an explicit abort/timeout; the
stakeholder, per-owner variables and report-types fetches have none. -/
theorem c8_amended_timeouts :
    (remoteSyncClientCalls.filter (fun c => c.hasAbortTimeout)).map (·.endpoint) =
      ["GET /login/ (CSRF token)", "POST /update-data/"] ∧
    remoteSyncClientCalls.map (·.timeoutMs) =
      [some 20000, some 5000, none, none, none] :=
  ⟨rfl, rfl⟩

/-- C10: after successful initialization, a query failure inside
`getPendingUpdatesCount`, `getCachedStakeholders` or
`getCachedStakeholderVariables` is swallowed — the accessor resolves with 0
or the empty list, exactly what it returns on an empty store — while
`getPendingUpdates` rethrows the query error. -/
theorem c10_read_accessors_swallow_errors (pending : List PendingUpdate)
    (table : List StakeholderRow) (vtable : List StakeholderVariableRow)
    (stakeholderId : Nat) (m : String) :
    getPendingUpdatesCountRun pending (.fail m) = Except.ok 0 ∧
    getPendingUpdatesCountRun pending (.fail m) = getPendingUpdatesCountRun [] .ok ∧
    getCachedStakeholdersRun table (.fail m) = Except.ok [] ∧
    getCachedStakeholdersRun table (.fail m) = getCachedStakeholdersRun [] .ok ∧
    getCachedStakeholderVariablesRun vtable stakeholderId (.fail m) = Except.ok [] ∧
    getCachedStakeholderVariablesRun vtable stakeholderId (.fail m) =
      getCachedStakeholderVariablesRun [] stakeholderId .ok ∧
    getPendingUpdatesRun pending (.fail m) = Except.error m :=
  ⟨rfl, rfl, rfl, rfl, rfl, rfl, rfl⟩

/-- C9 counterexample: the bulk-clear operation (`clearAllUpdates`) deletes
the queued row but leaves its photo file — which lies inside the owned
offline-photos directory — untouched. -/
theorem c9_counterexample :
    (clearAllUpdates storeC9).pending = [] ∧
    updateC9.photo_uri =
      some "file:///data/user/0/app/files/offline_photos/photo_1.jpg" ∧
    inOfflinePhotosDir "file:///data/user/0/app/files/offline_photos/photo_1.jpg" = true ∧
    (clearAllUpdates storeC9).files =
      ["file:///data/user/0/app/files/offline_photos/photo_1.jpg"] := by
  refine ⟨rfl, rfl, by decide, rfl⟩

/-- C9 amended: `removeUpdate` always deletes the row — in particular a
failing photo-file deletion does not fail the row deletion — and deletes the
photo file when the reference lies inside the owned offline-photos directory,
the file exists and the deletion succeeds; the bulk-clear operation
(`clearAllUpdates`) deletes rows only and leaves photo files in place. -/
theorem c9_amended_photo_cleanup (s : StoreState) (updateId : Nat) (deleteOk : Bool) :
    ((removeUpdate s updateId deleteOk).pending =
      s.pending.filter (fun u => u.id != updateId)) ∧
    (∀ u uri, s.pending.find? (fun v => v.id == updateId) = some u →
      u.photo_uri = some uri → inOfflinePhotosDir uri = true → uri ∈ s.files →
      deleteOk = true → uri ∉ (removeUpdate s updateId deleteOk).files) ∧
    ((clearAllUpdates s).pending = [] ∧ (clearAllUpdates s).files = s.files) := by
  refine ⟨rfl, ?_, rfl, rfl⟩
  intro u uri hfind huri hdir hmem hdel
  subst hdel
  have huri_ne : uri ≠ "" := by
    intro h
    subst h
    exact absurd hdir (by decide)
  have htruthy : jsTruthy (some uri) = true := by
    simp [jsTruthy, huri_ne]
  have hcont : s.files.contains uri = true := by
    simpa using hmem
  simp [removeUpdate, hfind, huri, htruthy, hdir, hmem, List.mem_filter]

/-- C9 witness: applying the amended theorem to the concrete store deletes the
row and the photo file. -/
theorem c9_amended_photo_cleanup_witness :
    storeC9.pending.find? (fun v => v.id == 1) = some updateC9 ∧
    updateC9.photo_uri =
      some "file:///data/user/0/app/files/offline_photos/photo_1.jpg" ∧
    inOfflinePhotosDir "file:///data/user/0/app/files/offline_photos/photo_1.jpg" = true ∧
    "file:///data/user/0/app/files/offline_photos/photo_1.jpg" ∈ storeC9.files ∧
    "file:///data/user/0/app/files/offline_photos/photo_1.jpg" ∉
      (removeUpdate storeC9 1 true).files := by
  refine ⟨rfl, rfl, by decide, by decide, ?_⟩
  exact (c9_amended_photo_cleanup storeC9 1 true).2.1 updateC9
    "file:///data/user/0/app/files/offline_photos/photo_1.jpg"
    rfl rfl (by decide) (by decide) rfl

/-- Inserting rows whose ids are fresh for the accumulated table and pairwise
distinct just appends them in order. -/
theorem foldl_insertOrReplaceVariableRow (rows init : List StakeholderVariableRow)
    (hdisj : ∀ r ∈ rows, ∀ t ∈ init, t.id ≠ r.id)
    (hnodup : (rows.map (·.id)).Nodup) :
    rows.foldl insertOrReplaceVariableRow init = init ++ rows := by
  induction rows generalizing init with
  | nil => simp
  | cons r rest ih =>
    simp only [List.foldl_cons]
    have hfilter : init.filter (fun t => t.id != r.id) = init := by
      apply List.filter_eq_self.mpr
      intro t ht
      simpa using hdisj r (by simp) t ht
    have hstep : insertOrReplaceVariableRow init r = init ++ [r] := by
      simp only [insertOrReplaceVariableRow, hfilter]
    rw [hstep, ih (init ++ [r])]
    · simp
    · intro x hx t ht
      rcases List.mem_append.mp ht with h | h
      · exact hdisj x (List.mem_cons_of_mem r hx) t h
      · have ht' : t = r := by simpa using h
        have hr : r.id ∉ rest.map (·.id) := by
          have hn := hnodup
          simp only [List.map_cons, List.nodup_cons] at hn
          exact hn.1
        rw [ht']
        intro hEq
        apply hr
        rw [hEq]
        exact List.mem_map_of_mem (·.id) hx
    · have := hnodup
      simp only [List.map_cons, List.nodup_cons] at this
      exact this.2

/-- Same statement for the `stakeholders` table. -/
theorem foldl_insertOrReplaceStakeholder (rows init : List StakeholderRow)
    (hdisj : ∀ r ∈ rows, ∀ t ∈ init, t.id ≠ r.id)
    (hnodup : (rows.map (·.id)).Nodup) :
    rows.foldl insertOrReplaceStakeholder init = init ++ rows := by
  induction rows generalizing init with
  | nil => simp
  | cons r rest ih =>
    simp only [List.foldl_cons]
    have hfilter : init.filter (fun t => t.id != r.id) = init := by
      apply List.filter_eq_self.mpr
      intro t ht
      simpa using hdisj r (by simp) t ht
    have hstep : insertOrReplaceStakeholder init r = init ++ [r] := by
      simp only [insertOrReplaceStakeholder, hfilter]
    rw [hstep, ih (init ++ [r])]
    · simp
    · intro x hx t ht
      rcases List.mem_append.mp ht with h | h
      · exact hdisj x (List.mem_cons_of_mem r hx) t h
      · have ht' : t = r := by simpa using h
        have hr : r.id ∉ rest.map (·.id) := by
          have hn := hnodup
          simp only [List.map_cons, List.nodup_cons] at hn
          exact hn.1
        rw [ht']
        intro hEq
        apply hr
        rw [hEq]
        exact List.mem_map_of_mem (·.id) hx
    · have := hnodup
      simp only [List.map_cons, List.nodup_cons] at this
      exact this.2

/-- C5 counterexample: the claim fails as stated.  `INSERT OR REPLACE` is
keyed on the server-global `id` column, so caching a variable for owner 2
whose id collides with a cached row of owner 1 silently deletes owner 1's row
(other owner scopes are affected); and a fetched list with duplicate ids
leaves fewer than K rows for the written scope. -/
theorem c5_counterexample :
    ((cacheStakeholderVariables [rowC5] 2 [varC5] 7).filter
        (fun r => r.stakeholder_id == 1) = [] ∧
      [rowC5].filter (fun r => r.stakeholder_id == 1) = [rowC5]) ∧
    (cacheStakeholders [] [stkC5, stkC5] 7).length = 1 ∧
    (cacheStakeholderVariables [] 2 [varC5, varC5] 7).length = 1 :=
  ⟨⟨rfl, rfl⟩, rfl, rfl⟩

/-- C5 amended: provided the fetched stakeholder ids are pairwise distinct,
and the fetched variable ids are pairwise distinct and collide with no cached
row of a different owner, each cache-write is a full replace of its owner
scope: `cacheStakeholders` leaves exactly the K fetched rows, and
`cacheStakeholderVariables` leaves exactly the K fetched rows for that owner
— no stale rows — while rows of other owners are unaffected. -/
theorem c5_amended_cache_full_replace (tableS : List StakeholderRow)
    (table : List StakeholderVariableRow) (stakeholders : List Stakeholder)
    (vars : List StakeholderVariable) (stakeholderId now : Nat)
    (hs : (stakeholders.map (·.id)).Nodup)
    (hv : (vars.map (·.id)).Nodup)
    (hx : ∀ v ∈ vars, ∀ r ∈ table, r.stakeholder_id ≠ stakeholderId → r.id ≠ v.id) :
    (cacheStakeholders tableS stakeholders now =
        stakeholders.map (stakeholderRowOf · now) ∧
      (cacheStakeholders tableS stakeholders now).length = stakeholders.length) ∧
    ((cacheStakeholderVariables table stakeholderId vars now).filter
        (fun r => r.stakeholder_id == stakeholderId) =
          vars.map (variableRowOf stakeholderId · now) ∧
      ((cacheStakeholderVariables table stakeholderId vars now).filter
        (fun r => r.stakeholder_id == stakeholderId)).length = vars.length ∧
      (cacheStakeholderVariables table stakeholderId vars now).filter
        (fun r => r.stakeholder_id != stakeholderId) =
          table.filter (fun r => r.stakeholder_id != stakeholderId)) := by
  have hAid : (stakeholders.map (stakeholderRowOf · now)).map (·.id) =
      stakeholders.map (·.id) := by
    rw [List.map_map]
    rfl
  have hA : cacheStakeholders tableS stakeholders now =
      stakeholders.map (stakeholderRowOf · now) := by
    unfold cacheStakeholders
    rw [← List.foldl_map (stakeholderRowOf · now) insertOrReplaceStakeholder]
    rw [foldl_insertOrReplaceStakeholder _ [] (by simp) (by rw [hAid]; exact hs)]
    simp
  have hBid : (vars.map (variableRowOf stakeholderId · now)).map (·.id) =
      vars.map (·.id) := by
    rw [List.map_map]
    rfl
  have hBdisj : ∀ r ∈ vars.map (variableRowOf stakeholderId · now),
      ∀ t ∈ table.filter (fun r => r.stakeholder_id != stakeholderId), t.id ≠ r.id := by
    intro r hr t ht
    rcases List.mem_map.mp hr with ⟨v, hv', rfl⟩
    rcases List.mem_filter.mp ht with ⟨htab, hne⟩
    have : t.stakeholder_id ≠ stakeholderId := by simpa using hne
    exact hx v hv' t htab this
  have hB : cacheStakeholderVariables table stakeholderId vars now =
      table.filter (fun r => r.stakeholder_id != stakeholderId) ++
        vars.map (variableRowOf stakeholderId · now) := by
    unfold cacheStakeholderVariables
    rw [← List.foldl_map (variableRowOf stakeholderId · now) insertOrReplaceVariableRow]
    exact foldl_insertOrReplaceVariableRow _ _ hBdisj (by rw [hBid]; exact hv)
  have hRowsOwner : ∀ r ∈ vars.map (variableRowOf stakeholderId · now),
      r.stakeholder_id = stakeholderId := by
    intro r hr
    rcases List.mem_map.mp hr with ⟨v, _, rfl⟩
    rfl
  have hInitOther : ∀ r ∈ table.filter (fun r => r.stakeholder_id != stakeholderId),
      r.stakeholder_id ≠ stakeholderId := by
    intro r hr
    have := (List.mem_filter.mp hr).2
    simpa using this
  refine ⟨⟨hA, by rw [hA]; simp⟩, ?_, ?_, ?_⟩
  · rw [hB, List.filter_append]
    have h1 : (table.filter (fun r => r.stakeholder_id != stakeholderId)).filter
        (fun r => r.stakeholder_id == stakeholderId) = [] := by
      rw [List.filter_eq_nil_iff]
      intro r hr
      simpa using hInitOther r hr
    have h2 : (vars.map (variableRowOf stakeholderId · now)).filter
        (fun r => r.stakeholder_id == stakeholderId) =
        vars.map (variableRowOf stakeholderId · now) := by
      apply List.filter_eq_self.mpr
      intro r hr
      simpa using hRowsOwner r hr
    rw [h1, h2, List.nil_append]
  · rw [hB, List.filter_append]
    have h1 : (table.filter (fun r => r.stakeholder_id != stakeholderId)).filter
        (fun r => r.stakeholder_id == stakeholderId) = [] := by
      rw [List.filter_eq_nil_iff]
      intro r hr
      simpa using hInitOther r hr
    have h2 : (vars.map (variableRowOf stakeholderId · now)).filter
        (fun r => r.stakeholder_id == stakeholderId) =
        vars.map (variableRowOf stakeholderId · now) := by
      apply List.filter_eq_self.mpr
      intro r hr
      simpa using hRowsOwner r hr
    rw [h1, h2, List.nil_append, List.length_map]
  · rw [hB, List.filter_append]
    have h1 : (table.filter (fun r => r.stakeholder_id != stakeholderId)).filter
        (fun r => r.stakeholder_id != stakeholderId) =
        table.filter (fun r => r.stakeholder_id != stakeholderId) := by
      apply List.filter_eq_self.mpr
      intro r hr
      exact (List.mem_filter.mp hr).2
    have h2 : (vars.map (variableRowOf stakeholderId · now)).filter
        (fun r => r.stakeholder_id != stakeholderId) = [] := by
      rw [List.filter_eq_nil_iff]
      intro r hr
      simpa using hRowsOwner r hr
    rw [h1, h2, List.append_nil]

/-- C5 witness: caching one stakeholder and one variable for owner 1 (no id
collisions) leaves exactly one row in each scope. -/
theorem c5_amended_cache_full_replace_witness :
    ([stkC5].map (·.id)).Nodup ∧ ([varC5].map (·.id)).Nodup ∧
    (∀ v ∈ [varC5], ∀ r ∈ [rowC5], r.stakeholder_id ≠ 1 → r.id ≠ v.id) ∧
    (cacheStakeholders [] [stkC5] 7).length = 1 ∧
    ((cacheStakeholderVariables [rowC5] 1 [varC5] 7).filter
        (fun r => r.stakeholder_id == 1)).length = 1 := by
  refine ⟨by decide, by decide, by decide, ?_, ?_⟩
  · exact ((c5_amended_cache_full_replace [] [rowC5] [stkC5] [varC5] 1 7
      (by decide) (by decide) (by decide)).1).2
  · exact ((c5_amended_cache_full_replace [] [rowC5] [stkC5] [varC5] 1 7
      (by decide) (by decide) (by decide)).2).2.1

/-- The batches cover the sorted list exactly, in order. -/
theorem chunksOf5_flatten (l : List PendingUpdate) : (chunksOf5 l).flatten = l := by
  induction l using chunksOf5.induct with
  | case1 => simp [chunksOf5]
  | case2 l hne ih =>
    rw [chunksOf5, if_neg hne]
    simp only [List.flatten_cons, ih]
    exact List.take_append_drop 5 l

/-- Every batch is nonempty and holds at most 5 updates. -/
theorem chunksOf5_sizes (l : List PendingUpdate) :
    ∀ b ∈ chunksOf5 l, b ≠ [] ∧ b.length ≤ 5 := by
  induction l using chunksOf5.induct with
  | case1 => simp [chunksOf5]
  | case2 l hne ih =>
    rw [chunksOf5, if_neg hne]
    intro b hb
    rcases List.mem_cons.mp hb with rfl | hb
    · have hpos : 0 < l.length := List.length_pos.mpr hne
      constructor
      · intro h
        have := congrArg List.length h
        simp only [List.length_take, List.length_nil] at this
        omega
      · simp [List.length_take]
    · exact ih b hb

/-- Gluing a cons of at least two blocks inserts one pause after the head
block. -/
theorem glueWithPause_cons_cons (x y : List DrainEvent) (ys : List (List DrainEvent)) :
    glueWithPause (x :: y :: ys) = x ++ DrainEvent.pause :: glueWithPause (y :: ys) :=
  rfl

/-- The drain's event trace is exactly the per-batch dispatch/settle blocks in
chunk order, separated by single pauses. -/
theorem drainEvents_eq_glue (l : List PendingUpdate) :
    drainEvents l = glueWithPause ((chunksOf5 l).map
      (fun b => [DrainEvent.dispatchAll b, DrainEvent.settled b])) := by
  induction l using chunksOf5.induct with
  | case1 => simp [drainEvents, chunksOf5, glueWithPause]
  | case2 l hne ih =>
    rw [drainEvents, if_neg hne, chunksOf5, if_neg hne]
    by_cases hr : l.drop 5 = []
    · rw [if_pos hr, hr]
      simp [chunksOf5, glueWithPause]
    · rw [if_neg hr, ih]
      have hshape : ∃ c cs, chunksOf5 (l.drop 5) = c :: cs := by
        rw [chunksOf5, if_neg hr]
        exact ⟨_, _, rfl⟩
      rcases hshape with ⟨c, cs, hcs⟩
      rw [hcs]
      rfl

/-- C2: `getPendingUpdates` returns all pending updates in non-decreasing
`created_at` order (a sorted permutation of the stored rows), and one drain
processes exactly the successive 5-element chunks of that sorted list in
order: every batch is dispatched and fully settles before the next batch is
dispatched, with one pause between consecutive batches, the batches cover the
sorted list exactly, and every batch has between 1 and 5 members. -/
theorem c2_fifo_batching (pending : List PendingUpdate) :
    List.Sorted leCreated (getPendingUpdates pending) ∧
    (getPendingUpdates pending).Perm pending ∧
    drainEvents (getPendingUpdates pending) =
      glueWithPause ((chunksOf5 (getPendingUpdates pending)).map
        (fun b => [DrainEvent.dispatchAll b, DrainEvent.settled b])) ∧
    (chunksOf5 (getPendingUpdates pending)).flatten = getPendingUpdates pending ∧
    (∀ b ∈ chunksOf5 (getPendingUpdates pending), b ≠ [] ∧ b.length ≤ 5) :=
  ⟨List.sorted_insertionSort leCreated pending,
   List.perm_insertionSort leCreated pending,
   drainEvents_eq_glue _, chunksOf5_flatten _, chunksOf5_sizes _⟩

/-- C2 witness: the concrete two-element queue stored out of FIFO order is
returned sorted and drained as one batch. -/
theorem c2_fifo_batching_witness :
    List.Sorted leCreated (getPendingUpdates pendingC2) ∧
    (getPendingUpdates pendingC2).Perm pendingC2 ∧
    drainEvents (getPendingUpdates pendingC2) =
      glueWithPause ((chunksOf5 (getPendingUpdates pendingC2)).map
        (fun b => [DrainEvent.dispatchAll b, DrainEvent.settled b])) ∧
    (chunksOf5 (getPendingUpdates pendingC2)).flatten = getPendingUpdates pendingC2 ∧
    (∀ b ∈ chunksOf5 (getPendingUpdates pendingC2), b ≠ [] ∧ b.length ≤ 5) :=
  c2_fifo_batching pendingC2

/-- An option that is not the falsy empty string passes through
`lastError || null` unchanged. -/
theorem jsOrNull_eq_self (o : Option String) (h : o ≠ some "") : jsOrNull o = o := by
  match o with
  | none => rfl
  | some s =>
    have hs : s ≠ "" := fun hEq => h (by rw [hEq])
    simp [jsOrNull, hs]

/-- With unique primary keys, the database lookup of a queued row finds
exactly that row. -/
theorem find?_eq_of_mem_nodup (l : List PendingUpdate) (u : PendingUpdate)
    (hn : (idsOf l).Nodup) (hu : u ∈ l) :
    l.find? (fun v => v.id == u.id) = some u := by
  induction l with
  | nil => cases hu
  | cons a t ih =>
    rcases List.mem_cons.mp hu with rfl | hu'
    · exact List.find?_cons_of_pos _ (by simp)
    · have hn' : (idsOf t).Nodup ∧ a.id ∉ idsOf t := by
        have := hn
        simp only [idsOf, List.map_cons, List.nodup_cons] at this
        exact ⟨this.2, this.1⟩
      have hne : ¬ ((fun v => v.id == u.id) a = true) := by
        simp only [beq_iff_eq]
        intro hEq
        exact hn'.2 (hEq ▸ List.mem_map_of_mem (·.id) hu')
      rw [@List.find?_cons_of_neg _ (fun v => v.id == u.id) a t hne]
      exact ih hn'.1 hu'

/-- `updateRetryCount` rewrites the found row in place: the lookup after the
update returns the same row with the new bookkeeping fields. -/
theorem find?_updateRetryCount (l : List PendingUpdate) (i n : Nat)
    (e : Option String) (u : PendingUpdate)
    (h : l.find? (fun v => v.id == i) = some u) :
    (updateRetryCount l i n e).find? (fun v => v.id == i) =
      some { u with retry_count := n, last_error := jsOrNull e } := by
  induction l with
  | nil => simp at h
  | cons a t ih =>
    simp only [updateRetryCount, List.map_cons]
    by_cases ha : ((fun v => v.id == i) a = true)
    · have hu : a = u := by
        rw [@List.find?_cons_of_pos _ (fun v => v.id == i) a t ha] at h
        exact Option.some.inj h
      subst hu
      rw [if_pos ha]
      exact @List.find?_cons_of_pos _ (fun v => v.id == i)
        { a with retry_count := n, last_error := jsOrNull e } _ ha
    · rw [if_neg ha]
      rw [@List.find?_cons_of_neg _ (fun v => v.id == i) a t ha] at h
      rw [@List.find?_cons_of_neg _ (fun v => v.id == i) a _ ha]
      exact ih h

/-- One failing dispatch attempt leaves the row in place with `retry_count`
incremented and the failure message persisted. -/
theorem dispatchAttempt_failure (s : StoreState) (i : Nat) (o : ApiOutcome)
    (dOk : Bool) (u : PendingUpdate)
    (h : s.pending.find? (fun v => v.id == i) = some u)
    (ho : o ≠ ApiOutcome.success) :
    (dispatchAttempt s i o dOk).pending.find? (fun v => v.id == i) =
      some { u with retry_count := u.retry_count + 1,
                    last_error := jsOrNull (failureMessage o) } := by
  have hid : u.id = i := by
    have := List.find?_some h
    simpa using this
  match o with
  | ApiOutcome.success => exact absurd rfl ho
  | ApiOutcome.failure e =>
    have key : updateRetryCount s.pending u.id (u.retry_count + 1) e =
        updateRetryCount s.pending i (u.retry_count + 1) e := by rw [hid]
    simp only [dispatchAttempt, h, processUpdate, failureMessage]
    rw [key]
    exact find?_updateRetryCount s.pending i (u.retry_count + 1) e u h
  | ApiOutcome.thrown m =>
    have key : updateRetryCount s.pending u.id (u.retry_count + 1) (some m) =
        updateRetryCount s.pending i (u.retry_count + 1) (some m) := by rw [hid]
    simp only [dispatchAttempt, h, processUpdate, failureMessage]
    rw [key]
    exact find?_updateRetryCount s.pending i (u.retry_count + 1) (some m) u h

/-- Folding consecutive failing attempts accumulates the retry count and keeps
the last failure message. -/
theorem foldl_dispatch_failures (attempts : List (ApiOutcome × Bool))
    (s : StoreState) (u : PendingUpdate) (i : Nat)
    (h : s.pending.find? (fun v => v.id == i) = some u)
    (hall : ∀ a ∈ attempts, a.1 ≠ ApiOutcome.success)
    (hne : attempts ≠ []) :
    (attempts.foldl (fun st a => dispatchAttempt st i a.1 a.2) s).pending.find?
        (fun v => v.id == i) =
      some { u with retry_count := u.retry_count + attempts.length,
                    last_error := jsOrNull (failureMessage (attempts.getLast hne).1) } := by
  induction attempts generalizing s u with
  | nil => exact absurd rfl hne
  | cons a rest ih =>
    have hstep := dispatchAttempt_failure s i a.1 a.2 u h (hall a (by simp))
    match rest with
    | [] =>
      simpa using hstep
    | b :: bs =>
      have hrest : ∀ x ∈ b :: bs, x.1 ≠ ApiOutcome.success :=
        fun x hx => hall x (List.mem_cons_of_mem a hx)
      have hx := ih (dispatchAttempt s i a.1 a.2)
        { u with retry_count := u.retry_count + 1,
                 last_error := jsOrNull (failureMessage a.1) }
        hstep hrest (by simp)
      rw [List.foldl_cons, hx]
      have hlast : ((a :: b :: bs).getLast (by simp)).1 =
          ((b :: bs).getLast (by simp)).1 := by
        rw [List.getLast_cons (by simp : (b :: bs) ≠ [])]
      rw [hlast]
      have harith : u.retry_count + 1 + (b :: bs).length =
          u.retry_count + (a :: b :: bs).length := by
        simp only [List.length_cons]
        omega
      rw [harith]

/-- C1: a pending update whose dispatch fails in M consecutive attempts (each
attempt resolving unsuccessfully or throwing) is still present in the queue
afterwards, with `retry_count` raised by M and `last_error` equal to the most
recent failure's message (which survives the `lastError || null` binding as
long as it is not the falsy empty string); and a dispatch attempt removes a
row only when the remote service reported success — any non-success outcome
preserves the row. -/
theorem c1_failed_dispatches_keep_item (s : StoreState) (u : PendingUpdate)
    (attempts : List (ApiOutcome × Bool))
    (hql : (idsOf s.pending).Nodup)
    (hu : u ∈ s.pending)
    (hne : attempts ≠ [])
    (hfail : ∀ a ∈ attempts, a.1 ≠ ApiOutcome.success)
    (hmsg : failureMessage (attempts.getLast hne).1 ≠ some "") :
    (∃ u' ∈ (attempts.foldl (fun st a => dispatchAttempt st u.id a.1 a.2) s).pending,
      u'.id = u.id ∧ u'.retry_count = u.retry_count + attempts.length ∧
      u'.last_error = failureMessage (attempts.getLast hne).1) ∧
    (∀ (st : StoreState) (i : Nat) (o : ApiOutcome) (dOk : Bool),
      o ≠ ApiOutcome.success → (∃ v ∈ st.pending, v.id = i) →
      ∃ v ∈ (dispatchAttempt st i o dOk).pending, v.id = i) := by
  constructor
  · have hfind := find?_eq_of_mem_nodup s.pending u hql hu
    have hfold := foldl_dispatch_failures attempts s u u.id hfind hfail hne
    refine ⟨_, List.mem_of_find?_eq_some hfold, rfl, rfl, ?_⟩
    exact jsOrNull_eq_self _ hmsg
  · intro st i o dOk ho hv
    rcases hv with ⟨v, hvmem, hvid⟩
    cases hf : st.pending.find? (fun u => u.id == i) with
    | none =>
      refine ⟨v, ?_, hvid⟩
      simp only [dispatchAttempt, hf]
      exact hvmem
    | some w =>
      cases o with
      | success => exact absurd rfl ho
      | failure e =>
        refine ⟨(fun x => if x.id == w.id then
            { x with retry_count := w.retry_count + 1, last_error := jsOrNull e }
            else x) v, ?_, ?_⟩
        · simp only [dispatchAttempt, hf, processUpdate, updateRetryCount]
          exact List.mem_map_of_mem _ hvmem
        · dsimp only
          split <;> exact hvid
      | thrown m =>
        refine ⟨(fun x => if x.id == w.id then
            { x with retry_count := w.retry_count + 1, last_error := jsOrNull (some m) }
            else x) v, ?_, ?_⟩
        · simp only [dispatchAttempt, hf, processUpdate, updateRetryCount]
          exact List.mem_map_of_mem _ hvmem
        · dsimp only
          split <;> exact hvid

/-- C1 witness: after an HTTP rejection and a thrown timeout, the queued
measurement is still present with `retry_count = 2` and the timeout message
persisted. -/
theorem c1_failed_dispatches_keep_item_witness :
    (idsOf storeC1.pending).Nodup ∧ updateC1 ∈ storeC1.pending ∧
    (∀ a ∈ attemptsC1, a.1 ≠ ApiOutcome.success) ∧
    (∃ u' ∈ (attemptsC1.foldl
        (fun st a => dispatchAttempt st updateC1.id a.1 a.2) storeC1).pending,
      u'.id = updateC1.id ∧ u'.retry_count = updateC1.retry_count + attemptsC1.length ∧
      u'.last_error = some "Request timeout") := by
  refine ⟨by decide, by decide, by decide, ?_⟩
  exact (c1_failed_dispatches_keep_item storeC1 updateC1 attemptsC1
    (by decide) (by decide) (by decide) (by decide) (by decide)).1

/-- Looking a variable id up in the latest-update map is a left fold of the
max-by-`created_at` step over the updates targeting that id, for any initial
map state. -/
theorem latestUpdatesByVariable_char (l : List PendingUpdate)
    (m : Nat → Option PendingUpdate) (vid : Nat) :
    (l.foldl
      (fun m u => fun k =>
        if k = u.stakeholder_variable_id then
          match m u.stakeholder_variable_id with
          | none => some u
          | some e => if e.created_at < u.created_at then some u else some e
        else m k)
      m) vid =
    pickLatest (m vid) (l.filter (fun u => u.stakeholder_variable_id == vid)) := by
  induction l generalizing m with
  | nil => rfl
  | cons u t ih =>
    simp only [List.foldl_cons, List.filter_cons]
    by_cases h : u.stakeholder_variable_id = vid
    · subst h
      rw [if_pos (by simp)]
      rw [ih]
      simp only [pickLatest, List.foldl_cons]
      congr 1
      try rw [if_pos rfl]
    · rw [if_neg (by simpa using h)]
      rw [ih]
      congr 1
      try rw [if_neg (fun hEq => h hEq.symm)]

/-- The latest-update map of `mergePendingUpdatesWithVariables`, expressed via
`pickLatest`. -/
theorem latestUpdatesByVariable_eq_pickLatest (l : List PendingUpdate) (vid : Nat) :
    latestUpdatesByVariable l vid =
      pickLatest none (l.filter (fun u => u.stakeholder_variable_id == vid)) :=
  latestUpdatesByVariable_char l (fun _ => none) vid

/-- An accumulator at least as late as everything that follows survives the
fold. -/
theorem pickLatest_dominant (u0 : PendingUpdate) (t : List PendingUpdate)
    (h : ∀ v ∈ t, ¬ u0.created_at < v.created_at) :
    pickLatest (some u0) t = some u0 := by
  induction t with
  | nil => rfl
  | cons v t ih =>
    simp only [pickLatest, List.foldl_cons]
    show pickLatest
      (if u0.created_at < v.created_at then some v else some u0) t = some u0
    rw [if_neg (h v (by simp))]
    exact ih (fun w hw => h w (List.mem_cons_of_mem v hw))

/-- The fold returns the update with the strictly latest `created_at` when
one exists, from any accumulator it dominates. -/
theorem pickLatest_strict_max (l : List PendingUpdate) (acc : Option PendingUpdate)
    (u0 : PendingUpdate) (hmem : u0 ∈ l)
    (hmax : ∀ u ∈ l, u ≠ u0 → u.created_at < u0.created_at)
    (hacc : acc = none ∨ acc = some u0 ∨
      ∃ a, acc = some a ∧ a.created_at < u0.created_at) :
    pickLatest acc l = some u0 := by
  induction l generalizing acc with
  | nil => cases hmem
  | cons v t ih =>
    simp only [pickLatest, List.foldl_cons]
    by_cases hv : v = u0
    · subst hv
      have hdom : ∀ w ∈ t, ¬ v.created_at < w.created_at := by
        intro w hw
        by_cases hwv : w = v
        · subst hwv
          exact lt_irrefl _
        · exact Nat.lt_asymm (hmax w (List.mem_cons_of_mem v hw) hwv)
      rcases hacc with rfl | rfl | ⟨a, rfl, hlt⟩
      · exact pickLatest_dominant v t hdom
      · show pickLatest
          (if v.created_at < v.created_at then some v else some v) t = some v
        rw [if_neg (Nat.lt_irrefl _)]
        exact pickLatest_dominant v t hdom
      · show pickLatest
          (if a.created_at < v.created_at then some v else some a) t = some v
        rw [if_pos hlt]
        exact pickLatest_dominant v t hdom
    · have hvlt : v.created_at < u0.created_at := hmax v (by simp) hv
      have hmem' : u0 ∈ t := by
        rcases List.mem_cons.mp hmem with h | h
        · exact absurd h.symm hv
        · exact h
      have hmax' : ∀ u ∈ t, u ≠ u0 → u.created_at < u0.created_at :=
        fun u hu hne => hmax u (List.mem_cons_of_mem v hu) hne
      rcases hacc with rfl | rfl | ⟨a, rfl, hlt⟩
      · exact ih (some v) hmem' hmax' (Or.inr (Or.inr ⟨v, rfl, hvlt⟩))
      · show pickLatest
          (if u0.created_at < v.created_at then some v else some u0) t = some u0
        rw [if_neg (Nat.lt_asymm hvlt)]
        exact ih (some u0) hmem' hmax' (Or.inr (Or.inl rfl))
      · show pickLatest
          (if a.created_at < v.created_at then some v else some a) t = some u0
        by_cases hav : a.created_at < v.created_at
        · rw [if_pos hav]
          exact ih (some v) hmem' hmax' (Or.inr (Or.inr ⟨v, rfl, hvlt⟩))
        · rw [if_neg hav]
          exact ih (some a) hmem' hmax' (Or.inr (Or.inr ⟨a, rfl, hlt⟩))

/-- C4: the report-data merge leaves every variable with no targeting pending
update unchanged at its position; a variable targeted by pending updates gets
`current_value` from the targeting update with the strictly latest
`created_at` and a `latest_data` record synthesized from it with
`data_quality = "pending"`; the merge is a pure function returning a new list
of the same length — it mutates neither the queue nor the cache (no mutation
exists in this embedding). -/
theorem c4_merge_overlay (vars : List StakeholderVariable)
    (pendingUpdates : List PendingUpdate) (i : Nat) (v : StakeholderVariable)
    (hv : vars[i]? = some v) :
    (mergePendingUpdatesWithVariables vars pendingUpdates).length = vars.length ∧
    ((∀ u ∈ pendingUpdates, u.stakeholder_variable_id ≠ v.id) →
      (mergePendingUpdatesWithVariables vars pendingUpdates)[i]? = some v) ∧
    (∀ u0 ∈ pendingUpdates, u0.stakeholder_variable_id = v.id →
      (∀ u ∈ pendingUpdates, u.stakeholder_variable_id = v.id → u ≠ u0 →
        u.created_at < u0.created_at) →
      (mergePendingUpdatesWithVariables vars pendingUpdates)[i]? = some
        { v with
            current_value := u0.value
            latest_data := some
              { value := u0.value
                measurement_date := u0.measurement_date
                data_quality := "pending"
                has_attachments := jsTruthy u0.photo_uri
                file_description := u0.file_description
                created_at := u0.created_at } }) := by
  refine ⟨by simp [mergePendingUpdatesWithVariables], ?_, ?_⟩
  · intro hnone
    have hfilter : pendingUpdates.filter
        (fun u => u.stakeholder_variable_id == v.id) = [] := by
      rw [List.filter_eq_nil_iff]
      intro u hu
      simpa using hnone u hu
    have hlookup : latestUpdatesByVariable pendingUpdates v.id = none := by
      rw [latestUpdatesByVariable_eq_pickLatest, hfilter]
      rfl
    simp [mergePendingUpdatesWithVariables, List.getElem?_map, hv, hlookup]
  · intro u0 hu0mem hu0tgt hmax
    have hfmem : u0 ∈ pendingUpdates.filter
        (fun u => u.stakeholder_variable_id == v.id) :=
      List.mem_filter.mpr ⟨hu0mem, by simpa using hu0tgt⟩
    have hlookup : latestUpdatesByVariable pendingUpdates v.id = some u0 := by
      rw [latestUpdatesByVariable_eq_pickLatest]
      refine pickLatest_strict_max _ none u0 hfmem ?_ (Or.inl rfl)
      intro u hu hne
      have hm := List.mem_filter.mp hu
      exact hmax u hm.1 (by simpa using hm.2) hne
    simp [mergePendingUpdatesWithVariables, List.getElem?_map, hv, hlookup]

/-- C4 witness: with cached `current_value = "10"` and two pending updates
for the variable, the later one (`value = "12"`) overrides the merged value
and the synthesized measurement is tagged pending. -/
theorem c4_merge_overlay_witness :
    [varC4][0]? = some varC4 ∧
    pendC4b ∈ [pendC4a, pendC4b] ∧
    pendC4b.stakeholder_variable_id = varC4.id ∧
    (∀ u ∈ [pendC4a, pendC4b], u.stakeholder_variable_id = varC4.id →
      u ≠ pendC4b → u.created_at < pendC4b.created_at) ∧
    (mergePendingUpdatesWithVariables [varC4] [pendC4a, pendC4b])[0]? = some
      { varC4 with
          current_value := "12"
          latest_data := some
            { value := "12", measurement_date := "2024-03-02",
              data_quality := "pending", has_attachments := false,
              file_description := none, created_at := 40 } } := by
  refine ⟨rfl, by decide, rfl, by decide, ?_⟩
  exact (c4_merge_overlay [varC4] [pendC4a, pendC4b] 0 varC4 rfl).2.2
    pendC4b (by decide) rfl (by decide)

/-- C6: for both `getStakeholders` and `getStakeholderVariables`, the `fresh`
component is the background fetch, and that promise settles with `Except.ok`
for every combination of connectivity-check, fetch and cache-write outcomes —
it never rejects.  When the device is offline it resolves with the cached
data and the cache is unchanged; on remote success it resolves with the
fetched data, the cache being overwritten when the write succeeds; on a
thrown connectivity check, a thrown fetch or an HTTP error it resolves with
the cached data. -/
theorem c6_fresh_never_rejects (table : List StakeholderRow)
    (vtable : List StakeholderVariableRow) (stakeholderId now : Nat)
    (net : NetCheckOutcome) (fs : FetchOutcome (List Stakeholder))
    (fv : FetchOutcome (List StakeholderVariable)) (cws cwv : WriteOutcome) :
    (getStakeholders table net fs cws now).2 =
      fetchStakeholdersInBackground table net fs cws now ∧
    (getStakeholderVariables vtable stakeholderId net fv cwv now).2 =
      fetchStakeholderVariablesInBackground vtable stakeholderId net fv cwv now ∧
    (∃ v t, fetchStakeholdersInBackground table net fs cws now = (Except.ok v, t)) ∧
    (∃ v t, fetchStakeholderVariablesInBackground vtable stakeholderId net fv cwv now =
      (Except.ok v, t)) ∧
    (∀ c r, net = NetCheckOutcome.result c r → (c && r) = false →
      fetchStakeholdersInBackground table net fs cws now =
        (Except.ok (getCachedStakeholders table), table) ∧
      fetchStakeholderVariablesInBackground vtable stakeholderId net fv cwv now =
        (Except.ok (getCachedStakeholderVariables vtable stakeholderId), vtable)) ∧
    (∀ data, net = NetCheckOutcome.result true true → fs = FetchOutcome.ok data →
      cws = WriteOutcome.ok →
      fetchStakeholdersInBackground table net fs cws now =
        (Except.ok data, cacheStakeholders table data now)) ∧
    (∀ data, net = NetCheckOutcome.result true true → fv = FetchOutcome.ok data →
      cwv = WriteOutcome.ok →
      fetchStakeholderVariablesInBackground vtable stakeholderId net fv cwv now =
        (Except.ok data, cacheStakeholderVariables vtable stakeholderId data now)) ∧
    (∀ m, fs = FetchOutcome.thrown m ∨ net = NetCheckOutcome.thrown m →
      (fetchStakeholdersInBackground table net fs cws now).1 =
        Except.ok (getCachedStakeholders table)) ∧
    (∀ st, fs = FetchOutcome.httpError st → net = NetCheckOutcome.result true true →
      (fetchStakeholdersInBackground table net fs cws now).1 =
        Except.ok (getCachedStakeholders table)) ∧
    (∀ m, fv = FetchOutcome.thrown m ∨ net = NetCheckOutcome.thrown m →
      (fetchStakeholderVariablesInBackground vtable stakeholderId net fv cwv now).1 =
        Except.ok (getCachedStakeholderVariables vtable stakeholderId)) ∧
    (∀ st, fv = FetchOutcome.httpError st → net = NetCheckOutcome.result true true →
      (fetchStakeholderVariablesInBackground vtable stakeholderId net fv cwv now).1 =
        Except.ok (getCachedStakeholderVariables vtable stakeholderId)) := by
  refine ⟨rfl, rfl, ?_, ?_, ?_, ?_, ?_, ?_, ?_, ?_, ?_⟩
  · rcases net with ⟨c, r⟩ | m
    · cases c <;> cases r <;> rcases fs with d | st | m2 <;> rcases cws with _ | m3 <;>
        exact ⟨_, _, rfl⟩
    · exact ⟨_, _, rfl⟩
  · rcases net with ⟨c, r⟩ | m
    · cases c <;> cases r <;> rcases fv with d | st | m2 <;> rcases cwv with _ | m3 <;>
        exact ⟨_, _, rfl⟩
    · exact ⟨_, _, rfl⟩
  · intro c r hnet hcr
    subst hnet
    cases c <;> cases r <;>
      first
        | exact absurd hcr (by decide)
        | exact ⟨rfl, rfl⟩
  · intro data hnet hfs hcw
    subst hnet; subst hfs; subst hcw
    rfl
  · intro data hnet hfv hcw
    subst hnet; subst hfv; subst hcw
    rfl
  · intro m h
    rcases h with hfs | hnet
    · subst hfs
      rcases net with ⟨c, r⟩ | m2
      · cases c <;> cases r <;> rfl
      · rfl
    · subst hnet
      rfl
  · intro st hfs hnet
    subst hfs; subst hnet
    rfl
  · intro m h
    rcases h with hfv | hnet
    · subst hfv
      rcases net with ⟨c, r⟩ | m2
      · cases c <;> cases r <;> rfl
      · rfl
    · subst hnet
      rfl
  · intro st hfv hnet
    subst hfv; subst hnet
    rfl

/-- C6 witness: offline, `fresh` resolves with the cached list and the cache
is untouched; online with a successful fetch, it resolves with the fetched
list after overwriting the cache. -/
theorem c6_fresh_never_rejects_witness :
    (fetchStakeholdersInBackground tableC6 (NetCheckOutcome.result false false)
        (FetchOutcome.thrown "network request failed") WriteOutcome.ok 9 =
      (Except.ok (getCachedStakeholders tableC6), tableC6)) ∧
    (fetchStakeholdersInBackground tableC6 (NetCheckOutcome.result true true)
        (FetchOutcome.ok [stkC6]) WriteOutcome.ok 9 =
      (Except.ok [stkC6], cacheStakeholders tableC6 [stkC6] 9)) := by
  constructor
  · exact ((c6_fresh_never_rejects tableC6 [] 1 9
      (NetCheckOutcome.result false false)
      (FetchOutcome.thrown "network request failed")
      (FetchOutcome.thrown "network request failed")
      WriteOutcome.ok WriteOutcome.ok).2.2.2.2.1 false false rfl rfl).1
  · exact (c6_fresh_never_rejects tableC6 [] 1 9
      (NetCheckOutcome.result true true)
      (FetchOutcome.ok [stkC6])
      (FetchOutcome.thrown "network request failed")
      WriteOutcome.ok WriteOutcome.ok).2.2.2.2.2.1 [stkC6] rfl rfl rfl
